import Mathlib

/-!
Verification development for the Nordnet trading simulator.

The repository snapshot contains the React frontend and the project
documentation; the Python backend engine (exit simulator, grid optimizer,
performance metrics, strategy evaluators, what-if comparator) is described
by the design document but its source files are not in the snapshot.
Those components are therefore modelled from the spec, faithfully to its
words; the frontend components (StopLossSimulator, WhatIfSimulator) are
embedded from their JavaScript source.

Prices and percentages are modelled as rationals; dates as natural-number
day indices (the series is ordered by strictly increasing date).
-/

namespace Nordnet

/-- A point of a price series: a date (day index) and a closing price. -/
structure PricePoint where
  date : ℕ
  close : ℚ
deriving DecidableEq

/-- Reason a simulated position was closed. -/
inductive ExitReason
  | STOP_LOSS
  | TAKE_PROFIT
  | END_OF_PERIOD
deriving DecidableEq

/-- Result record of the stop-loss/take-profit exit simulator (§3 SLTPResult). -/
structure SLTPResult where
  entry_price : ℚ
  entry_date : ℕ
  exit_price : ℚ
  exit_date : ℕ
  exit_reason : ExitReason
  holding_days : ℤ
  profit_loss : ℚ
  profit_loss_pct : ℚ
deriving DecidableEq

/-- Modelled from the spec: `stop_loss_price = entry_price × (1 − sl_pct/100)` (§4.4);
the backend module implementing the Exit Simulator is absent from the snapshot. -/
def stop_loss_price (entry_price sl_pct : ℚ) : ℚ :=
  entry_price * (1 - sl_pct / 100)

/-- Modelled from the spec: `take_profit_price = entry_price × (1 + tp_pct/100)` (§4.4). -/
def take_profit_price (entry_price tp_pct : ℚ) : ℚ :=
  entry_price * (1 + tp_pct / 100)

/-- Modelled from the spec: scan the series forward in date order and stop at the
first point whose close is ≤ the stop-loss price or ≥ the take-profit price;
if both thresholds are crossed on the same date, STOP_LOSS takes precedence (§4.4). -/
def findExit (slP tpP : ℚ) : List PricePoint → Option (PricePoint × ExitReason)
  | [] => none
  | p :: rest =>
    if p.close ≤ slP then some (p, ExitReason.STOP_LOSS)
    else if tpP ≤ p.close then some (p, ExitReason.TAKE_PROFIT)
    else findExit slP tpP rest

/-- Modelled from the spec: assemble the SLTPResult output fields,
`profit_loss = (exit_price − entry_price) × quantity`,
`profit_loss_pct = profit_loss / (entry_price × quantity) × 100`,
`holding_days` = calendar days between entry and exit dates (§4.4). -/
def mkSLTPResult (entry_price : ℚ) (entry_date : ℕ) (quantity exit_price : ℚ)
    (exit_date : ℕ) (reason : ExitReason) : SLTPResult :=
  let pl : ℚ := (exit_price - entry_price) * quantity
  { entry_price := entry_price
    entry_date := entry_date
    exit_price := exit_price
    exit_date := exit_date
    exit_reason := reason
    holding_days := (exit_date : ℤ) - (entry_date : ℤ)
    profit_loss := pl
    profit_loss_pct := pl / (entry_price * quantity) * 100 }

/-- Modelled from the spec: the Exit Simulator (§4.4). Scans the series forward;
exits at the first threshold crossing, otherwise at the final available close
with reason END_OF_PERIOD; fails (`none`, the NoDataError case) when the series
holds no price points. -/
def simulate_trade (series : List PricePoint) (entry_price quantity sl_pct tp_pct : ℚ)
    (entry_date : ℕ) : Option SLTPResult :=
  match series.getLast? with
  | none => none
  | some lastP =>
    match findExit (stop_loss_price entry_price sl_pct)
        (take_profit_price entry_price tp_pct) series with
    | some (p, reason) =>
      some (mkSLTPResult entry_price entry_date quantity p.close p.date reason)
    | none =>
      some (mkSLTPResult entry_price entry_date quantity lastP.close lastP.date
        ExitReason.END_OF_PERIOD)

/-- The five-point demonstration series of §8: closes 100, 105, 95, 110, 120
on consecutive days. -/
def demoSeries : List PricePoint :=
  [⟨0, 100⟩, ⟨1, 105⟩, ⟨2, 95⟩, ⟨3, 110⟩, ⟨4, 120⟩]

lemma findExit_close_le_slP {slP tpP : ℚ} {series : List PricePoint}
    {p : PricePoint} {er : ExitReason}
    (h : findExit slP tpP series = some (p, er)) (hle : p.close ≤ slP) :
    er = ExitReason.STOP_LOSS := by
  induction series with
  | nil => simp [findExit] at h
  | cons q rest ih =>
    by_cases h1 : q.close ≤ slP
    · simp [findExit, h1] at h
      exact h.2.symm
    · by_cases h2 : tpP ≤ q.close
      · simp [findExit, h1, h2] at h
        obtain ⟨rfl, rfl⟩ := h
        exact absurd hle h1
      · simp [findExit, h1, h2] at h
        exact ih h

lemma findExit_ne_nil {slP tpP : ℚ} {series : List PricePoint}
    {p : PricePoint} {er : ExitReason}
    (h : findExit slP tpP series = some (p, er)) : series ≠ [] := by
  intro hnil
  subst hnil
  simp [findExit] at h

/-- C1: on the demonstration series [100, 105, 95, 110, 120] with entry price 100,
quantity 10, stop-loss 5% (stop price 95) and take-profit 10% (take-profit price 110),
the Exit Simulator exits at index 2 (date 2, close 95) with reason STOP_LOSS,
profit_loss −50 and holding_days 2, and profit_loss = (exit_price − entry_price) × quantity. -/
theorem exit_simulator_demo_scenario :
    simulate_trade demoSeries 100 10 5 10 0 =
      some (mkSLTPResult 100 0 10 95 2 ExitReason.STOP_LOSS) ∧
    (mkSLTPResult 100 0 10 95 2 ExitReason.STOP_LOSS).exit_price = 95 ∧
    (mkSLTPResult 100 0 10 95 2 ExitReason.STOP_LOSS).exit_reason = ExitReason.STOP_LOSS ∧
    (mkSLTPResult 100 0 10 95 2 ExitReason.STOP_LOSS).profit_loss = -50 ∧
    (mkSLTPResult 100 0 10 95 2 ExitReason.STOP_LOSS).holding_days = 2 ∧
    (mkSLTPResult 100 0 10 95 2 ExitReason.STOP_LOSS).profit_loss =
      ((mkSLTPResult 100 0 10 95 2 ExitReason.STOP_LOSS).exit_price -
        (mkSLTPResult 100 0 10 95 2 ExitReason.STOP_LOSS).entry_price) * 10 := by
  refine ⟨?_, by norm_num [mkSLTPResult], rfl, by norm_num [mkSLTPResult],
    by norm_num [mkSLTPResult], by norm_num [mkSLTPResult]⟩
  norm_num [simulate_trade, demoSeries, findExit, stop_loss_price, take_profit_price]

/-- C2: whenever the first threshold crossing of the scan happens at a point whose
close is simultaneously ≤ the stop-loss price and ≥ the take-profit price, the
Exit Simulator exits at that point with exit_reason = STOP_LOSS. -/
theorem exit_simulator_tie_rule (series : List PricePoint)
    (entry_price quantity sl_pct tp_pct : ℚ) (entry_date : ℕ)
    (p : PricePoint) (er : ExitReason)
    (hfind : findExit (stop_loss_price entry_price sl_pct)
      (take_profit_price entry_price tp_pct) series = some (p, er))
    (hsl : p.close ≤ stop_loss_price entry_price sl_pct)
    (htp : take_profit_price entry_price tp_pct ≤ p.close) :
    simulate_trade series entry_price quantity sl_pct tp_pct entry_date =
      some (mkSLTPResult entry_price entry_date quantity p.close p.date
        ExitReason.STOP_LOSS) := by
  have hne : series ≠ [] := findExit_ne_nil hfind
  have hreason : er = ExitReason.STOP_LOSS := findExit_close_le_slP hfind hsl
  subst hreason
  unfold simulate_trade
  rw [List.getLast?_eq_getLast series hne, hfind]

/-- Witness for C2: a concrete series where on the first crossing date the close
(100) is both ≤ the stop price (100, from sl_pct = 0) and ≥ the take-profit price
(100, from tp_pct = 0); the simulator reports STOP_LOSS there. -/
theorem exit_simulator_tie_rule_witness :
    simulate_trade [⟨0, 100⟩] 100 1 0 0 0 =
      some (mkSLTPResult 100 0 1 100 0 ExitReason.STOP_LOSS) :=
  exit_simulator_tie_rule [⟨0, 100⟩] 100 1 0 0 0 ⟨0, 100⟩ ExitReason.STOP_LOSS
    (by norm_num [findExit, stop_loss_price, take_profit_price])
    (by norm_num [stop_loss_price])
    (by norm_num [take_profit_price])

/-! ## Performance metrics (§4.3), modelled from the spec -/

/-- Mean of a list of rationals (empty list yields 0, as division by a zero length). -/
def listMean (l : List ℚ) : ℚ := l.sum / (l.length : ℚ)

/-- Modelled from the spec: daily returns are the simple percent change between
consecutive equity values (§4.3); the metrics module is absent from the snapshot. -/
def daily_returns (values : List ℚ) : List ℚ :=
  List.zipWith (fun prev next => (next - prev) / prev) values values.tail

/-- Population variance of a list of daily returns. -/
def listVariance (l : List ℚ) : ℚ :=
  ((l.map fun x => (x - listMean l) ^ 2).sum) / (l.length : ℚ)

/-- Modelled from the spec: standard deviation is the square root of the variance.
The square-root function is a parameter of the model, so that the zero-guard
behaviour (§4.3, §7) can be settled independently of its numeric realisation. -/
def stdevWith (sqrtFn : ℚ → ℚ) (l : List ℚ) : ℚ := sqrtFn (listVariance l)

/-- Modelled from the spec: `annual_volatility_pct = stdev(daily_returns) × sqrt(252) × 100`. -/
def annual_volatility_pct (sqrtFn : ℚ → ℚ) (values : List ℚ) : ℚ :=
  stdevWith sqrtFn (daily_returns values) * sqrtFn 252 * 100

/-- Modelled from the spec: `sharpe_ratio = mean/stdev × sqrt(252)`, defined as 0
when the standard deviation is 0 (never NaN). -/
def sharpe_ratio (sqrtFn : ℚ → ℚ) (values : List ℚ) : ℚ :=
  let s := stdevWith sqrtFn (daily_returns values)
  if s = 0 then 0 else listMean (daily_returns values) / s * sqrtFn 252

/-- Modelled from the spec: the running peak of the equity values seen so far,
continued from a prior peak (§4.3 max-drawdown method). -/
def runningMaxesFrom (peak : ℚ) : List ℚ → List ℚ
  | [] => []
  | v :: rest => max peak v :: runningMaxesFrom (max peak v) rest

/-- Running peak sequence of an equity curve: the peak at each index is the
maximum value seen up to and including that index. -/
def runningMaxes : List ℚ → List ℚ
  | [] => []
  | v :: rest => v :: runningMaxesFrom v rest

/-- Modelled from the spec: at each point, `drawdown = (value − P) / P` against the
running peak `P` (§4.3). -/
def drawdowns (values : List ℚ) : List ℚ :=
  List.zipWith (fun v p => (v - p) / p) values (runningMaxes values)

/-- Modelled from the spec: `max_drawdown_pct = min(drawdown over all points) × 100`. -/
def max_drawdown_pct (values : List ℚ) : ℚ :=
  ((drawdowns values).foldl min 0) * 100

/-- Reference prefix maximum: the running maximum of the curve at index `i`
(maximum of the first `i + 1` values). -/
def runningMax (values : List ℚ) (i : ℕ) : ℚ :=
  match values with
  | [] => 0
  | v :: rest => (rest.take i).foldl max v

lemma drawdowns_from_bounds (rest : List ℚ) :
    ∀ (peak : ℚ), 0 < peak → (∀ v ∈ rest, 0 < v) →
      ∀ d ∈ List.zipWith (fun v p => (v - p) / p) rest (runningMaxesFrom peak rest),
        -1 < d ∧ d ≤ 0 := by
  induction rest with
  | nil => intro peak _ _ d hd; simp at hd
  | cons v rest ih =>
    intro peak hpeak hpos d hd
    have hv : 0 < v := hpos v (by simp)
    have hmax : 0 < max peak v := lt_max_of_lt_left hpeak
    simp only [runningMaxesFrom, List.zipWith_cons_cons, List.mem_cons] at hd
    rcases hd with rfl | hd
    · constructor
      · rw [neg_lt, ← neg_div, neg_sub, div_lt_one hmax]
        have : v ≤ max peak v := le_max_right peak v
        linarith
      · apply div_nonpos_of_nonpos_of_nonneg
        · simp [sub_nonpos, le_max_right]
        · exact le_of_lt hmax
    · exact ih (max peak v) hmax (fun w hw => hpos w (by simp [hw])) d hd

lemma foldl_min_bounds (l : List ℚ) :
    ∀ (init : ℚ), -1 ≤ init → init ≤ 0 → (∀ d ∈ l, -1 < d ∧ d ≤ 0) →
      -1 ≤ l.foldl min init ∧ l.foldl min init ≤ 0 := by
  induction l with
  | nil => intro init h1 h2 _; exact ⟨h1, h2⟩
  | cons d rest ih =>
    intro init h1 h2 hall
    have hd := hall d (by simp)
    simp only [List.foldl_cons]
    exact ih (min init d) (le_min h1 (le_of_lt hd.1)) (min_le_of_left_le h2)
      (fun x hx => hall x (by simp [hx]))

lemma drawdowns_zero_from (rest : List ℚ) :
    ∀ (peak : ℚ) (i : ℕ), 0 < peak →
      rest[i]? = some (((rest.take (i + 1)).foldl max peak)) →
      (List.zipWith (fun v p => (v - p) / p) rest (runningMaxesFrom peak rest))[i]? =
        some 0 := by
  induction rest with
  | nil => intro peak i _ h; simp at h
  | cons v rest ih =>
    intro peak i hpeak h
    match i with
    | 0 =>
      have hveq : v = max peak v := by
        simp only [List.getElem?_cons_zero, Option.some.injEq, List.take_succ_cons,
          List.take_zero, List.foldl_cons, List.foldl_nil] at h
        exact h
      simp only [runningMaxesFrom, List.zipWith_cons_cons, List.getElem?_cons_zero,
        Option.some.injEq]
      rw [← hveq, sub_self, zero_div]
    | i + 1 =>
      simp only [List.getElem?_cons_succ] at h
      simp only [runningMaxesFrom, List.zipWith_cons_cons, List.getElem?_cons_succ]
      apply ih (max peak v) i (lt_max_of_lt_left hpeak)
      rw [h, List.take_succ_cons, List.foldl_cons]

/-- C4: over any non-empty, everywhere-positive equity curve, the running-peak
max drawdown lies in [-100, 0], and the pointwise drawdown is exactly 0 at every
index where the equity value equals its running maximum so far. -/
theorem max_drawdown_in_range_and_zero_at_peak (values : List ℚ)
    (hne : values ≠ []) (hpos : ∀ v ∈ values, 0 < v) :
    (-100 ≤ max_drawdown_pct values ∧ max_drawdown_pct values ≤ 0) ∧
    ∀ i : ℕ, values[i]? = some (runningMax values i) → (drawdowns values)[i]? = some 0 := by
  match values, hne with
  | v :: rest, _ =>
    have hv : 0 < v := hpos v (by simp)
    have hrest : ∀ w ∈ rest, 0 < w := fun w hw => hpos w (by simp [hw])
    have hdd : ∀ d ∈ drawdowns (v :: rest), -1 < d ∧ d ≤ 0 := by
      intro d hd
      simp only [drawdowns, runningMaxes, List.zipWith_cons_cons, List.mem_cons] at hd
      rcases hd with rfl | hd
      · constructor
        · rw [neg_lt, ← neg_div, neg_sub, div_lt_one hv]; linarith
        · simp [sub_self]
      · exact drawdowns_from_bounds rest v hv hrest d hd
    constructor
    · have hb := foldl_min_bounds (drawdowns (v :: rest)) 0 (by norm_num) le_rfl hdd
      constructor
      · unfold max_drawdown_pct; nlinarith [hb.1, hb.2]
      · unfold max_drawdown_pct; nlinarith [hb.1, hb.2]
    · intro i h
      match i with
      | 0 =>
        simp only [drawdowns, runningMaxes, List.zipWith_cons_cons,
          List.getElem?_cons_zero, Option.some.injEq]
        rw [sub_self, zero_div]
      | i + 1 =>
        simp only [List.getElem?_cons_succ] at h
        simp only [drawdowns, runningMaxes, List.zipWith_cons_cons,
          List.getElem?_cons_succ]
        exact drawdowns_zero_from rest v i hv h

/-- Witness for C4 at a concrete curve [100, 120, 90, 120]: the bounds hold and
at index 1 (value 120, a fresh running maximum) the drawdown is 0. -/
theorem max_drawdown_in_range_and_zero_at_peak_witness :
    (-100 ≤ max_drawdown_pct [100, 120, 90, 120] ∧
      max_drawdown_pct [100, 120, 90, 120] ≤ 0) ∧
    (drawdowns [100, 120, 90, 120])[1]? = some 0 := by
  have h := max_drawdown_in_range_and_zero_at_peak [100, 120, 90, 120]
    (by simp) (by norm_num)
  refine ⟨h.1, h.2 1 ?_⟩
  norm_num [runningMax]

/-- C5: whenever the daily-return standard deviation is zero (the square-root
function sending 0 to 0 and the variance being 0), both the Sharpe ratio and the
annual volatility are the defined value 0; in particular the variance of the
daily returns of every constant curve and of every curve with at most one point
is 0. -/
theorem sharpe_and_volatility_zero_on_flat (sqrtFn : ℚ → ℚ) (values : List ℚ)
    (h0 : sqrtFn 0 = 0) (hvar : listVariance (daily_returns values) = 0) :
    sharpe_ratio sqrtFn values = 0 ∧
    annual_volatility_pct sqrtFn values = 0 ∧
    (∀ (c : ℚ) (n : ℕ), listVariance (daily_returns (List.replicate n c)) = 0) ∧
    (∀ l : List ℚ, l.length ≤ 1 → listVariance (daily_returns l) = 0) := by
  have hs : stdevWith sqrtFn (daily_returns values) = 0 := by
    rw [stdevWith, hvar, h0]
  refine ⟨?_, ?_, ?_, ?_⟩
  · rw [sharpe_ratio]
    simp [hs]
  · rw [annual_volatility_pct, hs, zero_mul, zero_mul]
  · intro c n
    have hdr : ∀ m : ℕ, daily_returns (List.replicate m c) = List.replicate (m - 1) 0 := by
      intro m
      match m with
      | 0 => simp [daily_returns]
      | 1 => simp [daily_returns]
      | m + 2 =>
        have key : ∀ k : ℕ, List.zipWith (fun prev next => (next - prev) / prev)
            (c :: List.replicate k c) (List.replicate k c) = List.replicate k 0 := by
          intro k
          induction k with
          | zero => simp
          | succ k ihk =>
            simp only [List.replicate_succ, List.zipWith_cons_cons, ihk]
            simp [sub_self]
        have h2 : List.replicate (m + 2) c = c :: List.replicate (m + 1) c :=
          List.replicate_succ c (m + 1)
        simp only [daily_returns, h2, List.tail_cons]
        exact key (m + 1)
    rw [hdr]
    simp [listVariance, listMean]
  · intro l hl
    match l, hl with
    | [], _ => simp [daily_returns, listVariance, listMean]
    | [x], _ => simp [daily_returns, listVariance, listMean]

/-- Witness for C5: on the flat curve [100, 100, 100] with the identity in place of
the square root, the Sharpe ratio and the annual volatility both evaluate to 0. -/
theorem sharpe_and_volatility_zero_on_flat_witness :
    sharpe_ratio id [100, 100, 100] = 0 ∧
    annual_volatility_pct id [100, 100, 100] = 0 := by
  have h := sharpe_and_volatility_zero_on_flat id [100, 100, 100] rfl
    (by norm_num [daily_returns, listVariance, listMean])
  exact ⟨h.1, h.2.1⟩

/-! ## SMA crossover strategy evaluator (§4.1), modelled from the spec -/

/-- Engine failure taxonomy entries used by the strategy evaluators (§7). -/
inductive StrategyError
  | InsufficientDataError
deriving DecidableEq

/-- Simple moving average of the window of `w` closes ending at index `i`. -/
def smaAt (closes : List ℚ) (w i : ℕ) : ℚ :=
  listMean ((closes.take (i + 1)).drop (i + 1 - w))

/-- Modelled from the spec: one pass of the SMA crossover state machine from
index `i` with `k` indices left and current position state `st`: FLAT during
the warm-up (fewer than `long_window` points available), LONG on a strict
short-over-long, FLAT on a strict reversal, and holding the prior state on an
exact tie (§4.1). -/
def smaSignalsAux (closes : List ℚ) (s l : ℕ) : ℕ → Bool → ℕ → List Bool
  | 0, _, _ => []
  | k + 1, st, i =>
    let st' :=
      if i + 1 < l then false
      else if smaAt closes l i < smaAt closes s i then true
      else if smaAt closes s i < smaAt closes l i then false
      else st
    st' :: smaSignalsAux closes s l k st' (i + 1)

/-- Position signal of the SMA crossover over a close series: one boolean per
date, `true` = LONG, `false` = FLAT. -/
def smaSignals (closes : List ℚ) (s l : ℕ) : List Bool :=
  smaSignalsAux closes s l closes.length false 0

/-- Modelled from the spec: `SMACrossover.evaluate` fails with
InsufficientDataError on a series shorter than `long_window`, otherwise returns
the per-date position signal (§4.1); the strategy module is absent from the
snapshot. -/
def SMACrossover_evaluate (series : List PricePoint) (s l : ℕ) :
    Except StrategyError (List Bool) :=
  if series.length < l then Except.error StrategyError.InsufficientDataError
  else Except.ok (smaSignals (series.map PricePoint.close) s l)

lemma smaSignalsAux_warmup (closes : List ℚ) (s l : ℕ) :
    ∀ (k : ℕ) (st : Bool) (i j : ℕ), j < k → i + j + 1 < l →
      (smaSignalsAux closes s l k st i)[j]? = some false := by
  intro k
  induction k with
  | zero => intro st i j hj _; omega
  | succ k ih =>
    intro st i j hj hwarm
    match j with
    | 0 =>
      have hcond : i + 1 < l := by omega
      simp [smaSignalsAux, hcond]
    | j + 1 =>
      have hcond : i + 1 < l := by omega
      simp only [smaSignalsAux, hcond, if_true, List.getElem?_cons_succ]
      exact ih false (i + 1) j (by omega) (by omega)

/-- C7: `SMACrossover.evaluate` fails with InsufficientDataError exactly when the
series has fewer points than `long_window`; when it has at least `long_window`
points it succeeds, and the position signal is FLAT on each of the first
`long_window − 1` dates (the warm-up period). -/
theorem sma_crossover_insufficient_data_and_warmup (series : List PricePoint)
    (s l : ℕ) :
    (series.length < l ↔
      SMACrossover_evaluate series s l =
        Except.error StrategyError.InsufficientDataError) ∧
    (l ≤ series.length →
      SMACrossover_evaluate series s l =
        Except.ok (smaSignals (series.map PricePoint.close) s l) ∧
      ∀ j, j + 1 < l →
        (smaSignals (series.map PricePoint.close) s l)[j]? = some false) := by
  constructor
  · constructor
    · intro h
      simp [SMACrossover_evaluate, h]
    · intro h
      by_contra hlt
      simp [SMACrossover_evaluate, hlt] at h
  · intro hge
    have hlt : ¬ series.length < l := not_lt.mpr hge
    refine ⟨by simp [SMACrossover_evaluate, hlt], ?_⟩
    intro j hj
    have hlen : (series.map PricePoint.close).length = series.length :=
      List.length_map series PricePoint.close
    exact smaSignalsAux_warmup (series.map PricePoint.close) s l
      (series.map PricePoint.close).length false 0 j (by omega) (by omega)

/-- Witness for C7: with long_window = 3, a two-point series fails with
InsufficientDataError, and on a four-point series the first two dates of the
signal are FLAT. -/
theorem sma_crossover_insufficient_data_and_warmup_witness :
    SMACrossover_evaluate [⟨0, 10⟩, ⟨1, 11⟩] 2 3 =
      Except.error StrategyError.InsufficientDataError ∧
    (smaSignals ([⟨0, 10⟩, ⟨1, 11⟩, ⟨2, 20⟩, ⟨3, 21⟩].map PricePoint.close) 2 3)[0]? =
      some false ∧
    (smaSignals ([⟨0, 10⟩, ⟨1, 11⟩, ⟨2, 20⟩, ⟨3, 21⟩].map PricePoint.close) 2 3)[1]? =
      some false := by
  refine ⟨?_, ?_, ?_⟩
  · exact (sma_crossover_insufficient_data_and_warmup [⟨0, 10⟩, ⟨1, 11⟩] 2 3).1.mp
      (by norm_num)
  · exact ((sma_crossover_insufficient_data_and_warmup
      [⟨0, 10⟩, ⟨1, 11⟩, ⟨2, 20⟩, ⟨3, 21⟩] 2 3).2 (by norm_num)).2 0 (by norm_num)
  · exact ((sma_crossover_insufficient_data_and_warmup
      [⟨0, 10⟩, ⟨1, 11⟩, ⟨2, 20⟩, ⟨3, 21⟩] 2 3).2 (by norm_num)).2 1 (by norm_num)

/-! ## What-if all-in scenario (§4.6), modelled from the spec -/

/-- Core numeric fields of the all-in WhatIfResult (§3). -/
structure WhatIfCore where
  entry_price : ℚ
  exit_price : ℚ
  shares : ℚ
  exit_value : ℚ
  profit_loss : ℚ
  profit_loss_pct : ℚ
deriving DecidableEq

/-- Modelled from the spec: the all-in single-symbol scenario (§4.6): entry at
the first close of the fetched range, `shares = investment_amount / entry_price`,
exit at the last close, `exit_value = shares × exit_price`; `none` for an empty
series (NoDataError). The comparator module is absent from the snapshot. -/
def simulate_all_in : List PricePoint → ℚ → Option WhatIfCore
  | [], _ => none
  | first :: rest, investment_amount =>
    let lastP := (first :: rest).getLast (List.cons_ne_nil first rest)
    let entry_price := first.close
    let shares := investment_amount / entry_price
    let exit_price := lastP.close
    let exit_value := shares * exit_price
    some { entry_price := entry_price
           exit_price := exit_price
           shares := shares
           exit_value := exit_value
           profit_loss := exit_value - investment_amount
           profit_loss_pct := (exit_value - investment_amount) / investment_amount * 100 }

/-- C8: every all-in scenario result satisfies shares = investment_amount /
entry_price and exit_value = shares × exit_price; in particular investing
100000 at entry price 50 buys 2000 shares, and an exit price of 60 yields exit
value 120000, profit 20000 and a 20.00% return. -/
theorem all_in_scenario_shares_and_exit (series : List PricePoint)
    (investment_amount : ℚ) (r : WhatIfCore)
    (h : simulate_all_in series investment_amount = some r) :
    r.shares = investment_amount / r.entry_price ∧
    r.exit_value = r.shares * r.exit_price ∧
    simulate_all_in [⟨0, 50⟩, ⟨1, 60⟩] 100000 =
      some ⟨50, 60, 2000, 120000, 20000, 20⟩ := by
  refine ⟨?_, ?_, ?_⟩
  · match series, h with
    | first :: rest, h =>
      simp only [simulate_all_in, Option.some.injEq] at h
      rw [← h]
  · match series, h with
    | first :: rest, h =>
      simp only [simulate_all_in, Option.some.injEq] at h
      rw [← h]
  · norm_num [simulate_all_in, List.getLast]

/-- Witness for C8 at the concrete two-point series of the scenario. -/
theorem all_in_scenario_shares_and_exit_witness :
    (⟨50, 60, 2000, 120000, 20000, 20⟩ : WhatIfCore).shares =
      100000 / (⟨50, 60, 2000, 120000, 20000, 20⟩ : WhatIfCore).entry_price ∧
    (⟨50, 60, 2000, 120000, 20000, 20⟩ : WhatIfCore).exit_value =
      (⟨50, 60, 2000, 120000, 20000, 20⟩ : WhatIfCore).shares *
        (⟨50, 60, 2000, 120000, 20000, 20⟩ : WhatIfCore).exit_price := by
  have h := all_in_scenario_shares_and_exit [⟨0, 50⟩, ⟨1, 60⟩] 100000
    ⟨50, 60, 2000, 120000, 20000, 20⟩
    (by norm_num [simulate_all_in, List.getLast])
  exact ⟨h.1, h.2.1⟩

/-! ## Grid optimizer (§4.5), modelled from the spec -/

/-- One row of the optimizer's all_results (§3 OptimizationResult). -/
structure ComboResult where
  stop_loss_pct : ℚ
  take_profit_pct : ℚ
  net_profit_pct : ℚ
  win_rate : ℚ
  total_trades : ℕ
deriving DecidableEq

/-- Modelled from the spec: scan a close series for the first exit trigger and
return the exit close together with the remainder of the series after it. -/
def splitAtExit (slP tpP : ℚ) : List ℚ → Option (ℚ × List ℚ)
  | [] => none
  | c :: rest =>
    if c ≤ slP ∨ tpP ≤ c then some (c, rest)
    else splitAtExit slP tpP rest

lemma splitAtExit_length {slP tpP : ℚ} : ∀ {l : List ℚ} {c : ℚ} {after : List ℚ},
    splitAtExit slP tpP l = some (c, after) → after.length < l.length := by
  intro l
  induction l with
  | nil => intro c after h; simp [splitAtExit] at h
  | cons x rest ih =>
    intro c after h
    by_cases hx : x ≤ slP ∨ tpP ≤ x
    · simp only [splitAtExit, if_pos hx, Option.some.injEq, Prod.mk.injEq] at h
      rw [← h.2]
      simp
    · simp only [splitAtExit, if_neg hx] at h
      exact Nat.lt_succ_of_lt (ih h)

/-- Modelled from the spec: build the trade sample for one (sl, tp) pair by
running the Exit Simulator over non-overlapping sub-windows (§4.5): enter at the
first close, exit at the first trigger (or the final close), re-enter on the
next close after the exit; each trade contributes its profit percentage. -/
def tradeProfitPcts (sl_pct tp_pct : ℚ) : List ℚ → List ℚ
  | [] => []
  | entry :: rest =>
    match hsplit : splitAtExit (stop_loss_price entry sl_pct)
        (take_profit_price entry tp_pct) rest with
    | some (exitC, after) =>
      (exitC - entry) / entry * 100 :: tradeProfitPcts sl_pct tp_pct after
    | none =>
      match rest.getLast? with
      | some lastC => [(lastC - entry) / entry * 100]
      | none => []
termination_by l => l.length
decreasing_by
  simp only [List.length_cons]
  exact Nat.lt_succ_of_lt (splitAtExit_length hsplit)

/-- Modelled from the spec: per-pair aggregation (§4.5): `net_profit_pct` is the
sum of the sampled trade profits, `win_rate` the fraction of sampled trades with
positive profit (as a percentage), `total_trades` the sample size. -/
def evalCombo (closes : List ℚ) (sl tp : ℚ) : ComboResult :=
  let pcts := tradeProfitPcts sl tp closes
  { stop_loss_pct := sl
    take_profit_pct := tp
    net_profit_pct := pcts.sum
    win_rate := if pcts.length = 0 then 0
      else ((pcts.filter fun x => decide (0 < x)).length : ℚ) / (pcts.length : ℚ) * 100
    total_trades := pcts.length }

/-- Modelled from the spec: every (sl, tp) pair of the finite candidate grids is
evaluated in deterministic iteration order, ascending sl then ascending tp (§4.5). -/
def all_results (closes : List ℚ) (slGrid tpGrid : List ℚ) : List ComboResult :=
  slGrid.flatMap fun sl => tpGrid.map fun tp => evalCombo closes sl tp

/-- Strict "better" order of the selection rule: higher net profit, or equal net
profit and higher win rate. -/
def nwLT (a c : ComboResult) : Prop :=
  a.net_profit_pct < c.net_profit_pct ∨
  (a.net_profit_pct = c.net_profit_pct ∧ a.win_rate < c.win_rate)

/-- Non-strict companion of `nwLT`. -/
def nwLE (a c : ComboResult) : Prop :=
  a.net_profit_pct < c.net_profit_pct ∨
  (a.net_profit_pct = c.net_profit_pct ∧ a.win_rate ≤ c.win_rate)

instance (a c : ComboResult) : Decidable (nwLT a c) := by
  unfold nwLT
  infer_instance

/-- Modelled from the spec: keep the incumbent unless the candidate is strictly
better (higher net profit, or tied net profit and higher win rate); scanning in
ascending-sl order therefore leaves the lowest stop-loss among full ties (§4.5). -/
def pickBetter (b r : ComboResult) : ComboResult :=
  if nwLT b r then r else b

/-- Modelled from the spec: the best pair is the maximum of all evaluated
combinations under the selection rule (§4.5). -/
def selectBest : List ComboResult → Option ComboResult
  | [] => none
  | x :: xs => some (xs.foldl pickBetter x)

/-- OptimizationResult record (§3). -/
structure OptimizationResult where
  best_sl_pct : ℚ
  best_tp_pct : ℚ
  best_net_profit_pct : ℚ
  best_win_rate : ℚ
  all_results : List ComboResult
deriving DecidableEq

/-- Modelled from the spec: the Grid Optimizer (§4.5): evaluate the full grid,
select the best pair, and return it with the full ordered all_results. -/
def optimize_sl_tp (closes slGrid tpGrid : List ℚ) : Option OptimizationResult :=
  let results := all_results closes slGrid tpGrid
  match selectBest results with
  | none => none
  | some best =>
    some { best_sl_pct := best.stop_loss_pct
           best_tp_pct := best.take_profit_pct
           best_net_profit_pct := best.net_profit_pct
           best_win_rate := best.win_rate
           all_results := results }

lemma nwLE_refl (a : ComboResult) : nwLE a a := Or.inr ⟨rfl, le_rfl⟩

lemma nwLE_of_nwLT {a c : ComboResult} (h : nwLT a c) : nwLE a c := by
  unfold nwLT at h
  unfold nwLE
  rcases h with h | ⟨he, hw⟩
  · exact Or.inl h
  · exact Or.inr ⟨he, le_of_lt hw⟩

lemma nwLT_trans {a b c : ComboResult} (h1 : nwLT a b) (h2 : nwLT b c) : nwLT a c := by
  unfold nwLT at h1 h2 ⊢
  rcases h1 with h1 | ⟨h1e, h1w⟩ <;> rcases h2 with h2 | ⟨h2e, h2w⟩
  · exact Or.inl (lt_trans h1 h2)
  · exact Or.inl (by linarith)
  · exact Or.inl (by linarith)
  · exact Or.inr ⟨h1e.trans h2e, lt_trans h1w h2w⟩

lemma nwLE_trans {a b c : ComboResult} (h1 : nwLE a b) (h2 : nwLE b c) : nwLE a c := by
  unfold nwLE at h1 h2 ⊢
  rcases h1 with h1 | ⟨h1e, h1w⟩ <;> rcases h2 with h2 | ⟨h2e, h2w⟩
  · exact Or.inl (lt_trans h1 h2)
  · exact Or.inl (by linarith)
  · exact Or.inl (by linarith)
  · exact Or.inr ⟨h1e.trans h2e, le_trans h1w h2w⟩

lemma nwLE_of_not_nwLT {b r : ComboResult} (h : ¬ nwLT b r) : nwLE r b := by
  unfold nwLT at h
  push_neg at h
  unfold nwLE
  rcases lt_or_eq_of_le h.1 with hlt | heq
  · exact Or.inl hlt
  · exact Or.inr ⟨heq, h.2 heq.symm⟩

lemma nwLT_tie_absurd {a c : ComboResult} (h : nwLT a c)
    (hnet : c.net_profit_pct = a.net_profit_pct)
    (hwin : c.win_rate = a.win_rate) : False := by
  unfold nwLT at h
  rcases h with h | ⟨he, hw⟩ <;> linarith

lemma net_le_of_nwLE {r c : ComboResult} (h : nwLE r c) :
    r.net_profit_pct ≤ c.net_profit_pct := by
  unfold nwLE at h
  rcases h with h | ⟨he, _⟩
  · exact le_of_lt h
  · exact le_of_eq he

lemma win_le_of_nwLE {r c : ComboResult} (h : nwLE r c)
    (he : r.net_profit_pct = c.net_profit_pct) : r.win_rate ≤ c.win_rate := by
  unfold nwLE at h
  rcases h with h | ⟨_, hw⟩
  · linarith
  · exact hw

lemma pickBetter_pos {b r : ComboResult} (h : nwLT b r) : pickBetter b r = r := by
  simp [pickBetter, h]

lemma pickBetter_neg {b r : ComboResult} (h : ¬ nwLT b r) : pickBetter b r = b := by
  simp [pickBetter, h]

lemma foldl_pickBetter_spec (xs : List ComboResult) : ∀ (b : ComboResult),
    (xs.foldl pickBetter b = b ∨
      (xs.foldl pickBetter b ∈ xs ∧ nwLT b (xs.foldl pickBetter b))) ∧
    (∀ r ∈ xs, nwLE r (xs.foldl pickBetter b)) := by
  induction xs with
  | nil => intro b; exact ⟨Or.inl rfl, by simp⟩
  | cons r rest ih =>
    intro b
    simp only [List.foldl_cons]
    by_cases hc : nwLT b r
    · rw [pickBetter_pos hc]
      obtain ⟨ih1, ih2⟩ := ih r
      constructor
      · rcases ih1 with heq | ⟨hmem, hlt⟩
        · exact Or.inr ⟨by rw [heq]; exact List.mem_cons_self r rest, by rw [heq]; exact hc⟩
        · exact Or.inr ⟨List.mem_cons_of_mem r hmem, nwLT_trans hc hlt⟩
      · intro x hx
        rcases List.mem_cons.mp hx with rfl | hx'
        · rcases ih1 with heq | ⟨_, hlt⟩
          · rw [heq]; exact nwLE_refl x
          · exact nwLE_of_nwLT hlt
        · exact ih2 x hx'
    · rw [pickBetter_neg hc]
      obtain ⟨ih1, ih2⟩ := ih b
      have hrb : nwLE r b := nwLE_of_not_nwLT hc
      have hbb : nwLE b (rest.foldl pickBetter b) := by
        rcases ih1 with heq | ⟨_, hlt⟩
        · rw [heq]; exact nwLE_refl b
        · exact nwLE_of_nwLT hlt
      constructor
      · rcases ih1 with heq | ⟨hmem, hlt⟩
        · exact Or.inl heq
        · exact Or.inr ⟨List.mem_cons_of_mem r hmem, hlt⟩
      · intro x hx
        rcases List.mem_cons.mp hx with rfl | hx'
        · exact nwLE_trans hrb hbb
        · exact ih2 x hx'

lemma foldl_pickBetter_ties (xs : List ComboResult) : ∀ (b : ComboResult),
    (∀ r ∈ xs, b.stop_loss_pct ≤ r.stop_loss_pct) →
    xs.Pairwise (fun a c => a.stop_loss_pct ≤ c.stop_loss_pct) →
    ((xs.foldl pickBetter b).net_profit_pct = b.net_profit_pct ∧
        (xs.foldl pickBetter b).win_rate = b.win_rate →
      xs.foldl pickBetter b = b) ∧
    (∀ r ∈ xs, (xs.foldl pickBetter b).net_profit_pct = r.net_profit_pct ∧
        (xs.foldl pickBetter b).win_rate = r.win_rate →
      (xs.foldl pickBetter b).stop_loss_pct ≤ r.stop_loss_pct) := by
  induction xs with
  | nil => intro b _ _; exact ⟨fun _ => rfl, by simp⟩
  | cons r rest ih =>
    intro b hord hpair
    obtain ⟨hr, hpair'⟩ := List.pairwise_cons.mp hpair
    simp only [List.foldl_cons]
    by_cases hc : nwLT b r
    · rw [pickBetter_pos hc]
      obtain ⟨iht1, iht2⟩ := ih r hr hpair'
      obtain ⟨sp1, _⟩ := foldl_pickBetter_spec rest r
      have hbbest : nwLT b (rest.foldl pickBetter r) := by
        rcases sp1 with heq | ⟨_, hlt⟩
        · rw [heq]; exact hc
        · exact nwLT_trans hc hlt
      constructor
      · intro htie
        exact (nwLT_tie_absurd hbbest htie.1 htie.2).elim
      · intro x hx htie
        rcases List.mem_cons.mp hx with rfl | hx'
        · rw [iht1 htie]
        · exact iht2 x hx' htie
    · rw [pickBetter_neg hc]
      have hord' : ∀ c ∈ rest, b.stop_loss_pct ≤ c.stop_loss_pct :=
        fun c hcm => hord c (List.mem_cons_of_mem r hcm)
      obtain ⟨iht1, iht2⟩ := ih b hord' hpair'
      obtain ⟨sp1, _⟩ := foldl_pickBetter_spec rest b
      have hrb : nwLE r b := nwLE_of_not_nwLT hc
      have hbb : nwLE b (rest.foldl pickBetter b) := by
        rcases sp1 with heq | ⟨_, hlt⟩
        · rw [heq]; exact nwLE_refl b
        · exact nwLE_of_nwLT hlt
      refine ⟨iht1, ?_⟩
      intro x hx htie
      rcases List.mem_cons.mp hx with rfl | hx'
      · have hnets : x.net_profit_pct = b.net_profit_pct ∧
            b.net_profit_pct = (rest.foldl pickBetter b).net_profit_pct := by
          have h1 := net_le_of_nwLE hrb
          have h2 := net_le_of_nwLE hbb
          constructor <;> linarith [htie.1]
        have hwins : x.win_rate = b.win_rate ∧
            b.win_rate = (rest.foldl pickBetter b).win_rate := by
          have h1 := win_le_of_nwLE hrb hnets.1
          have h2 := win_le_of_nwLE hbb hnets.2
          constructor <;> linarith [htie.2]
        have hbeq : rest.foldl pickBetter b = b :=
          iht1 ⟨hnets.2.symm, hwins.2.symm⟩
        rw [hbeq]
        exact hord x (List.mem_cons_self x rest)
      · exact iht2 x hx' htie

/-- Lexicographic strict order on the grid coordinates of a result row. -/
def lexSLTP (a c : ComboResult) : Prop :=
  a.stop_loss_pct < c.stop_loss_pct ∨
  (a.stop_loss_pct = c.stop_loss_pct ∧ a.take_profit_pct < c.take_profit_pct)

lemma mem_all_results {closes : List ℚ} {g1 g2 : List ℚ} {r : ComboResult} :
    r ∈ all_results closes g1 g2 ↔
      ∃ sl ∈ g1, ∃ tp ∈ g2, evalCombo closes sl tp = r := by
  simp [all_results]

lemma grid_mem_of_mem_all_results {closes : List ℚ} {g1 g2 : List ℚ}
    {r : ComboResult} (h : r ∈ all_results closes g1 g2) :
    r.stop_loss_pct ∈ g1 ∧ r.take_profit_pct ∈ g2 := by
  obtain ⟨sl, hsl, tp, htp, rfl⟩ := mem_all_results.mp h
  exact ⟨hsl, htp⟩

lemma all_results_pairwise (closes : List ℚ) :
    ∀ (g1 g2 : List ℚ), List.Sorted (fun a c : ℚ => a < c) g1 →
      List.Sorted (fun a c : ℚ => a < c) g2 →
      (all_results closes g1 g2).Pairwise lexSLTP := by
  intro g1
  induction g1 with
  | nil => intro g2 _ _; simp [all_results]
  | cons sl rest ih =>
    intro g2 h1 h2
    rw [List.sorted_cons] at h1
    have hsplit : all_results closes (sl :: rest) g2 =
        (g2.map fun tp => evalCombo closes sl tp) ++ all_results closes rest g2 := by
      simp [all_results]
    rw [hsplit, List.pairwise_append]
    refine ⟨?_, ih g2 h1.2 h2, ?_⟩
    · rw [List.pairwise_map]
      exact h2.imp fun htp => Or.inr ⟨rfl, htp⟩
    · intro a ha b hb
      obtain ⟨tp, _, rfl⟩ := List.mem_map.mp ha
      have hbsl : b.stop_loss_pct ∈ rest := (grid_mem_of_mem_all_results hb).1
      exact Or.inl (h1.1 b.stop_loss_pct hbsl)

/-- C3: the Grid Optimizer is deterministic — two runs on identical inputs return
identical results — and for ascending candidate grids its all_results sequence is
ordered by ascending stop_loss_pct then ascending take_profit_pct. -/
theorem optimizer_deterministic_and_ordered (closes slGrid tpGrid : List ℚ)
    (hsl : List.Sorted (fun a c : ℚ => a < c) slGrid)
    (htp : List.Sorted (fun a c : ℚ => a < c) tpGrid) :
    optimize_sl_tp closes slGrid tpGrid = optimize_sl_tp closes slGrid tpGrid ∧
    all_results closes slGrid tpGrid = all_results closes slGrid tpGrid ∧
    (all_results closes slGrid tpGrid).Pairwise lexSLTP :=
  ⟨rfl, rfl, all_results_pairwise closes slGrid tpGrid hsl htp⟩

/-- Witness for C3 on the concrete grids sl ∈ {5, 10}, tp ∈ {10, 20} over the
close series [100]: the produced all_results is lexicographically ordered. -/
theorem optimizer_deterministic_and_ordered_witness :
    (all_results [100] [5, 10] [10, 20]).Pairwise lexSLTP :=
  (optimizer_deterministic_and_ordered [100] [5, 10] [10, 20]
    (by simp [List.sorted_cons]; norm_num) (by simp [List.sorted_cons]; norm_num)).2.2

/-- C6: the pair returned by the optimizer is a grid pair that maximizes
net_profit_pct; among pairs tied on net_profit_pct it has the highest win_rate,
and among pairs still tied it has the lowest stop_loss_pct. -/
theorem optimizer_selection_rule (closes slGrid tpGrid : List ℚ)
    (hsl : List.Sorted (fun a c : ℚ => a < c) slGrid)
    (htp : List.Sorted (fun a c : ℚ => a < c) tpGrid)
    (best : ComboResult)
    (h : selectBest (all_results closes slGrid tpGrid) = some best) :
    best ∈ all_results closes slGrid tpGrid ∧
    best.stop_loss_pct ∈ slGrid ∧
    best.take_profit_pct ∈ tpGrid ∧
    (∀ r ∈ all_results closes slGrid tpGrid,
      r.net_profit_pct ≤ best.net_profit_pct) ∧
    (∀ r ∈ all_results closes slGrid tpGrid,
      r.net_profit_pct = best.net_profit_pct → r.win_rate ≤ best.win_rate) ∧
    (∀ r ∈ all_results closes slGrid tpGrid,
      r.net_profit_pct = best.net_profit_pct → r.win_rate = best.win_rate →
      best.stop_loss_pct ≤ r.stop_loss_pct) ∧
    optimize_sl_tp closes slGrid tpGrid =
      some { best_sl_pct := best.stop_loss_pct
             best_tp_pct := best.take_profit_pct
             best_net_profit_pct := best.net_profit_pct
             best_win_rate := best.win_rate
             all_results := all_results closes slGrid tpGrid } := by
  obtain ⟨x, xs, hL⟩ : ∃ x xs, all_results closes slGrid tpGrid = x :: xs := by
    cases hAR : all_results closes slGrid tpGrid with
    | nil => rw [hAR] at h; simp [selectBest] at h
    | cons x xs => exact ⟨x, xs, rfl⟩
  rw [hL] at h
  simp only [selectBest, Option.some.injEq] at h
  have hpairLex := all_results_pairwise closes slGrid tpGrid hsl htp
  rw [hL] at hpairLex
  have hpairSL : (x :: xs).Pairwise
      (fun a c : ComboResult => a.stop_loss_pct ≤ c.stop_loss_pct) :=
    hpairLex.imp fun hac => by
      rcases hac with hlt | ⟨heq, _⟩
      · exact le_of_lt hlt
      · exact le_of_eq heq
  obtain ⟨hx, hxs⟩ := List.pairwise_cons.mp hpairSL
  obtain ⟨sp1, sp2⟩ := foldl_pickBetter_spec xs x
  obtain ⟨tie1, tie2⟩ := foldl_pickBetter_ties xs x hx hxs
  rw [← h] at *
  have hxbest : nwLE x (xs.foldl pickBetter x) := by
    rcases sp1 with heq | ⟨_, hlt⟩
    · rw [heq]; exact nwLE_refl x
    · exact nwLE_of_nwLT hlt
  have hall : ∀ r ∈ x :: xs, nwLE r (xs.foldl pickBetter x) := by
    intro r hrm
    rcases List.mem_cons.mp hrm with rfl | hr'
    · exact hxbest
    · exact sp2 r hr'
  have hmem : xs.foldl pickBetter x ∈ x :: xs := by
    rcases sp1 with heq | ⟨hm, _⟩
    · rw [heq]; exact List.mem_cons_self x xs
    · exact List.mem_cons_of_mem x hm
  have hmem' : xs.foldl pickBetter x ∈ all_results closes slGrid tpGrid := by
    rw [hL]; exact hmem
  have hgrids := grid_mem_of_mem_all_results hmem'
  have hsel : selectBest (all_results closes slGrid tpGrid) =
      some (xs.foldl pickBetter x) := by
    rw [hL]; rfl
  refine ⟨hmem', hgrids.1, hgrids.2, ?_, ?_, ?_, ?_⟩
  · intro r hrm
    rw [hL] at hrm
    exact net_le_of_nwLE (hall r hrm)
  · intro r hrm hre
    rw [hL] at hrm
    exact win_le_of_nwLE (hall r hrm) hre
  · intro r hrm hre hrw
    rw [hL] at hrm
    rcases List.mem_cons.mp hrm with rfl | hr'
    · rw [tie1 ⟨hre.symm, hrw.symm⟩]
    · exact tie2 r hr' ⟨hre.symm, hrw.symm⟩
  · simp [optimize_sl_tp, hsel]

/-- Witness for C6 at the single-pair grid sl ∈ {5}, tp ∈ {10} over the close
series [100, 90]: the selected pair belongs to the evaluated grid and the
optimizer's returned record carries it. -/
theorem optimizer_selection_rule_witness :
    evalCombo [100, 90] 5 10 ∈ all_results [100, 90] [5] [10] ∧
    optimize_sl_tp [100, 90] [5] [10] =
      some { best_sl_pct := (evalCombo [100, 90] 5 10).stop_loss_pct
             best_tp_pct := (evalCombo [100, 90] 5 10).take_profit_pct
             best_net_profit_pct := (evalCombo [100, 90] 5 10).net_profit_pct
             best_win_rate := (evalCombo [100, 90] 5 10).win_rate
             all_results := all_results [100, 90] [5] [10] } := by
  have h := optimizer_selection_rule [100, 90] [5] [10]
    (by simp [List.sorted_cons]) (by simp [List.sorted_cons])
    (evalCombo [100, 90] 5 10) rfl
  exact ⟨h.1, h.2.2.2.2.2.2⟩

/-! ## Frontend result views, embedded from the React components in src -/

/-- Descending comparison used by the StopLossSimulator table sort: the
JavaScript comparator `(a, b) => b.net_profit_pct - a.net_profit_pct` orders
rows by descending net_profit_pct. -/
def byNetDesc (a c : ComboResult) : Prop := c.net_profit_pct <= a.net_profit_pct

instance : DecidableRel byNetDesc := fun a c =>
  inferInstanceAs (Decidable (c.net_profit_pct <= a.net_profit_pct))

instance : IsTotal ComboResult byNetDesc :=
  ⟨fun a c => le_total c.net_profit_pct a.net_profit_pct⟩

instance : IsTrans ComboResult byNetDesc :=
  ⟨fun _ _ _ hab hbc => le_trans hbc hab⟩

/-- Embedded from the StopLossSimulator component: the "All Tested Combinations"
table renders `all_results.sort((a, b) => b.net_profit_pct - a.net_profit_pct)
.slice(0, 10)`; the comparison sort is modelled by insertion sort. -/
def displayedTopCombos (results : List ComboResult) : List ComboResult :=
  (results.insertionSort byNetDesc).take 10

/-- C9: the displayed "All Tested Combinations" table holds exactly the 10
entries with the highest net_profit_pct (all entries when fewer than 10),
listed in descending order of net_profit_pct: the rows are sorted descending,
there are min 10 n of them, together with the dropped rows they are a
permutation of all_results, and every dropped row has net_profit_pct at most
that of every displayed row. -/
theorem top_combos_table (results : List ComboResult) (hne : results ≠ []) :
    (displayedTopCombos results).Sorted byNetDesc ∧
    (displayedTopCombos results).length = min 10 results.length ∧
    List.Perm
      (displayedTopCombos results ++ (results.insertionSort byNetDesc).drop 10)
      results ∧
    ∀ a ∈ displayedTopCombos results,
      ∀ b ∈ (results.insertionSort byNetDesc).drop 10,
        b.net_profit_pct <= a.net_profit_pct := by
  refine ⟨?_, ?_, ?_, ?_⟩
  · exact (List.sorted_insertionSort byNetDesc results).sublist
      (List.take_sublist 10 (results.insertionSort byNetDesc))
  · rw [displayedTopCombos, List.length_take, List.length_insertionSort]
  · rw [displayedTopCombos, List.take_append_drop]
    exact List.perm_insertionSort byNetDesc results
  · intro a ha b hb
    exact (List.sorted_insertionSort byNetDesc results).rel_of_mem_take_of_mem_drop
      ha hb

/-- Witness for C9 on a concrete two-row all_results. -/
theorem top_combos_table_witness :
    (displayedTopCombos [⟨1, 1, 0, 0, 0⟩, ⟨2, 2, 5, 0, 0⟩]).Sorted byNetDesc ∧
    (displayedTopCombos [⟨1, 1, 0, 0, 0⟩, ⟨2, 2, 5, 0, 0⟩]).length =
      min 10 ([⟨1, 1, 0, 0, 0⟩, ⟨2, 2, 5, 0, 0⟩] : List ComboResult).length := by
  have h := top_combos_table [⟨1, 1, 0, 0, 0⟩, ⟨2, 2, 5, 0, 0⟩] (by simp)
  exact ⟨h.1, h.2.1⟩

/-- One scenario row of the what-if comparison table (WhatIfSimulator
component); symbols are abstracted to numeric identifiers. -/
structure ScenarioRow where
  symbol : ℕ
  exit_value : ℚ
  profit_loss : ℚ
  profit_loss_pct : ℚ
  max_drawdown_pct : ℚ
  annual_volatility_pct : ℚ
deriving DecidableEq

/-- Descending comparison used by the WhatIfSimulator table sort: the
JavaScript comparator `(a, b) => b.profit_loss_pct - a.profit_loss_pct`. -/
def byPlpDesc (a c : ScenarioRow) : Prop := c.profit_loss_pct <= a.profit_loss_pct

instance : DecidableRel byPlpDesc := fun a c =>
  inferInstanceAs (Decidable (c.profit_loss_pct <= a.profit_loss_pct))

instance : IsTotal ScenarioRow byPlpDesc :=
  ⟨fun a c => le_total c.profit_loss_pct a.profit_loss_pct⟩

instance : IsTrans ScenarioRow byPlpDesc :=
  ⟨fun _ _ _ hab hbc => le_trans hbc hab⟩

/-- Explicit-state embedding of the StopLossSimulator component state read by
its render: the optimizationResult.all_results array held in useState. -/
structure StopLossSimState where
  all_results : List ComboResult
deriving DecidableEq

/-- Explicit-state embedding of the WhatIfSimulator component state read by its
render: the compareResult.scenarios array held in useState. -/
structure WhatIfSimState where
  scenarios : List ScenarioRow
deriving DecidableEq

/-- Embedded from the StopLossSimulator render: `Array.prototype.sort` sorts the
state-held all_results array in place before `slice(0, 10)`, so rendering
returns the displayed rows together with the mutated component state. -/
def renderOptimizationTable (st : StopLossSimState) :
    List ComboResult × StopLossSimState :=
  let sorted := st.all_results.insertionSort byNetDesc
  (sorted.take 10, ⟨sorted⟩)

/-- Embedded from the WhatIfSimulator render: the comparison table sorts the
state-held scenarios array in place by descending profit_loss_pct and renders
every row. -/
def renderComparisonTable (st : WhatIfSimState) :
    List ScenarioRow × WhatIfSimState :=
  let sorted := st.scenarios.insertionSort byPlpDesc
  (sorted, ⟨sorted⟩)

/-- C10: rendering the result views mutates component state: after the render
the state-held all_results array is the in-place descending sort by
net_profit_pct and the state-held scenarios array is the in-place descending
sort by profit_loss_pct; consequently whenever the array returned by the API
was not already sorted that way, the post-render state no longer retains the
API's order. -/
theorem render_sorts_state_in_place (s1 : StopLossSimState) (s2 : WhatIfSimState) :
    (renderOptimizationTable s1).2.all_results =
      s1.all_results.insertionSort byNetDesc ∧
    (renderComparisonTable s2).2.scenarios =
      s2.scenarios.insertionSort byPlpDesc ∧
    ((renderOptimizationTable s1).2.all_results).Sorted byNetDesc ∧
    ((renderComparisonTable s2).2.scenarios).Sorted byPlpDesc ∧
    (¬ s1.all_results.Sorted byNetDesc →
      (renderOptimizationTable s1).2.all_results ≠ s1.all_results) ∧
    (¬ s2.scenarios.Sorted byPlpDesc →
      (renderComparisonTable s2).2.scenarios ≠ s2.scenarios) := by
  refine ⟨rfl, rfl, List.sorted_insertionSort byNetDesc s1.all_results,
    List.sorted_insertionSort byPlpDesc s2.scenarios, ?_, ?_⟩
  · intro hns heq
    apply hns
    rw [← heq]
    exact List.sorted_insertionSort byNetDesc s1.all_results
  · intro hns heq
    apply hns
    rw [← heq]
    exact List.sorted_insertionSort byPlpDesc s2.scenarios

/-- Witness for C10: with API-returned arrays that are in ascending order of the
sort keys, the post-render state arrays differ from the API order. -/
theorem render_sorts_state_in_place_witness :
    (renderOptimizationTable ⟨[⟨1, 1, 0, 0, 0⟩, ⟨2, 2, 5, 0, 0⟩]⟩).2.all_results ≠
      [⟨1, 1, 0, 0, 0⟩, ⟨2, 2, 5, 0, 0⟩] ∧
    (renderComparisonTable ⟨[⟨1, 10, 1, 0, 0, 0⟩, ⟨2, 20, 2, 5, 0, 0⟩]⟩).2.scenarios ≠
      [⟨1, 10, 1, 0, 0, 0⟩, ⟨2, 20, 2, 5, 0, 0⟩] := by
  have h := render_sorts_state_in_place ⟨[⟨1, 1, 0, 0, 0⟩, ⟨2, 2, 5, 0, 0⟩]⟩
    ⟨[⟨1, 10, 1, 0, 0, 0⟩, ⟨2, 20, 2, 5, 0, 0⟩]⟩
  refine ⟨h.2.2.2.2.1 ?_, h.2.2.2.2.2 ?_⟩
  · intro hs
    have := (List.pairwise_cons.mp hs).1 ⟨2, 2, 5, 0, 0⟩ (by simp)
    norm_num [byNetDesc] at this
  · intro hs
    have := (List.pairwise_cons.mp hs).1 ⟨2, 20, 2, 5, 0, 0⟩ (by simp)
    norm_num [byPlpDesc] at this

end Nordnet
